import Mathlib

/-!
Shallow embedding of the playback-clock / audio-scheduling core of the
Y-SilverBell (SwingSymphony) repository, together with proofs checking the
natural-language specification's claims against it.

Times are rationals (seconds for engine/song time, milliseconds for the
`performance.now()` timestamps handed to `requestAnimationFrame` callbacks);
the source's floating-point arithmetic on these values is embedded as exact
rational arithmetic.  The transcendental pitch-shift factor is embedded over
the reals.
-/

namespace SwingSymphony

/-- Percussion categories of the kinetic-chain cues: the TS union
`'KICK' | 'BASS' | 'SNARE' | 'CRASH'`. -/
inductive SoundType where
  | KICK
  | BASS
  | SNARE
  | CRASH
deriving DecidableEq, Repr

/-- A timed cue record (`RhythmNode` in `types.ts`).  The TS declaration has
`intensity: number`, but the values arrive from JSON and the consumers guard
with `node.intensity || 0.7`, so an absent field is representable: `none`
stands for `undefined` at runtime.  The opaque string id is embedded as a
natural number. -/
structure RhythmNode where
  id : Nat
  type : SoundType
  timestamp : ℚ
  intensity : Option ℚ
deriving DecidableEq, Repr

/-- The record handed to `audioService.scheduleSounds` (interface
`ScheduledSound` in `audioService.ts`). -/
structure ScheduledSound where
  id : Nat
  type : SoundType
  time : ℚ
  intensity : ℚ
deriving DecidableEq, Repr

/-- The slice of `SwingData` (`types.ts`) the playback core reads: the
recording's duration and its cue list. -/
structure SwingData where
  duration : ℚ
  rhythmTrack : List RhythmNode
deriving DecidableEq, Repr

/-- Studio.tsx `loadModelByIndex` stores the fetched model wholesale
(`setData(modelData)`); neither it nor `apiService.getModelData` sorts the
cue list or validates timestamps. -/
def loadModelData (modelData : SwingData) : SwingData :=
  modelData

/-- Intensity actually booked by the visualizer components: the TS expression
`node.intensity || 0.7` maps both an absent field and the value `0` to the
default `0.7`. -/
def effectiveIntensity (intensity : Option ℚ) : ℚ :=
  match intensity with
  | none => 0.7
  | some v => if v = 0 then 0.7 else v

/-- The list `RhythmVisualizer` (and the algo-testing visualizers) build and
pass to `audioService.scheduleSounds` when playback starts: every node is
mapped verbatim, `{id, type, time: node.timestamp, intensity: node.intensity
|| 0.7}`; nothing is filtered or reordered. -/
def visualizerScheduledSounds (nodes : List RhythmNode) : List ScheduledSound :=
  nodes.map (fun node => ⟨node.id, node.type, node.timestamp, effectiveIntensity node.intensity⟩)

/-- State of the playback clock of `swingsymphony_with_yoc44/components/
Studio.tsx` (identical in `swingsymphony_algo_testing/App.tsx`):
`startTimeRef.current` (`none` when unset), `currentTime` in song seconds,
`isPlaying`, plus a count of how many times the end-of-media branch has run
(the "ended" signal: `setCurrentTime(duration); setIsPlaying(false)`). -/
structure ClockState where
  startTime : Option ℚ
  currentTime : ℚ
  isPlaying : Bool
  endedCount : Nat
deriving DecidableEq, Repr

/-- The position formula inside `animate`: `elapsedMs = time - startTimeRef.
current; newTime = elapsedMs / 1000 * speedRef.current`. -/
def tickPosition (time startTime speed : ℚ) : ℚ :=
  (time - startTime) / 1000 * speed

/-- One `animate(time)` frame callback of the with_yoc44 Studio / algo-testing
App.  On the first frame of a run the anchor `startTimeRef` is set to the
frame's own timestamp.  When `newTime >= duration` the branch clamps
`currentTime` to `duration`, sets `isPlaying` to false, clears the anchor and
does not re-arm `requestAnimationFrame`.  `speed` is `speedRef.current` read
at this frame.  The `isPlaying` guard models that the callback is not invoked
once the loop is cancelled (pause) or not re-armed (end of media). -/
def animate (duration : ℚ) (s : ClockState) (time speed : ℚ) : ClockState :=
  if s.isPlaying then
    let st := s.startTime.getD time
    let newTime := tickPosition time st speed
    if duration ≤ newTime then
      ⟨none, duration, false, s.endedCount + 1⟩
    else
      ⟨some st, newTime, true, s.endedCount⟩
  else
    s

/-- Clock state right after `restartPlayback` / the `isPlaying` effect arms a
fresh run: `currentTime = 0`, `startTimeRef.current = undefined`, playing. -/
def playFromStart : ClockState :=
  ⟨none, 0, true, 0⟩

/-- A play run at constant speed: the frame callback applied to each hardware
timestamp of `ticks` in order. -/
def runAnimate (duration speed : ℚ) (s : ClockState) (ticks : List ℚ) : ClockState :=
  ticks.foldl (fun acc t => animate duration acc t speed) s

/-- State of the older clock in `swingsymphony/components/Studio.tsx`, which
has no ended counter and accumulates position per frame. -/
structure LegacyClockState where
  startTime : Option ℚ
  currentTime : ℚ
  isPlaying : Bool
deriving DecidableEq, Repr

/-- One `animate(time)` callback of the older `swingsymphony` Studio:
`progress = (time - startTime) / 1000 * speed; newTime = currentTime +
progress * 0.05`; on `newTime >= duration` it runs `setCurrentTime(0)` (reset
to zero, not a clamp to `duration`) and stops. -/
def legacyAnimate (duration speed : ℚ) (s : LegacyClockState) (time : ℚ) : LegacyClockState :=
  if s.isPlaying then
    let st := s.startTime.getD time
    let progress := (time - st) / 1000 * speed
    let newTime := s.currentTime + progress * (5 / 100)
    if duration ≤ newTime then
      ⟨none, 0, false⟩
    else
      ⟨some st, newTime, true⟩
  else
    s

/-- A one-shot voice armed on the audio engine.  Each `scheduleKick` /
`scheduleBass` / `scheduleSnare` / `scheduleCrash` call creates Web Audio
nodes connected to `masterGain` and calls `start(time)` on them; the service
keeps no reference to the nodes and never calls `stop` before their natural
end, so once created such a one-shot fires at its `time` and runs to its
decay regardless of anything the service does later.  The armed set
(`engineBookings` below) records exactly these calls. -/
structure Booking where
  type : SoundType
  time : ℚ
  intensity : ℚ
deriving DecidableEq, Repr

/-- Mutable state of the `AudioService` class in `audioService.ts`.
`masterGain = none` stands for the not-yet-created `audioContext` /
`masterGain` pair (they are always created together by `initAudio`);
`scheduledSounds` is the bookkeeping `Map<string, number>` from sound id to
booked engine time; `currentSpeed` feeds the pitch shift; `engineBookings`
is the engine-side armed set described at `Booking`. -/
structure AudioServiceState where
  masterGain : Option ℚ
  scheduledSounds : List (Nat × ℚ)
  currentSpeed : ℚ
  engineBookings : List Booking
deriving DecidableEq, Repr

/-- The service as constructed: no audio context, empty bookkeeping,
`currentSpeed = 1.0`. -/
def initialAudioState : AudioServiceState :=
  ⟨none, [], 1, []⟩

/-- Embeds `initAudio`: on first use create the context and the master gain
node with `gain.value = 0.3`; afterwards a no-op. -/
def initAudio (s : AudioServiceState) : AudioServiceState :=
  match s.masterGain with
  | none => { s with masterGain := some (3 / 10) }
  | some _ => s

/-- Embeds `setSpeed(speed)`: stores the speed used for pitch adjustment. -/
def setSpeed (s : AudioServiceState) (speed : ℚ) : AudioServiceState :=
  { s with currentSpeed := speed }

/-- Embeds `setVolume(volume)`: when the master gain exists, set it to
`Math.max(0, Math.min(1, volume))`; otherwise do nothing. -/
def setVolume (s : AudioServiceState) (volume : ℚ) : AudioServiceState :=
  match s.masterGain with
  | none => s
  | some _ => { s with masterGain := some (max 0 (min 1 volume)) }

/-- Embeds `scheduleSound` together with the per-category `scheduleKick` /
`scheduleBass` / `scheduleSnare` / `scheduleCrash` bodies as far as the
engine is concerned: when the context exists, web-audio nodes for the voice
are created and armed at `time` (recorded in `engineBookings`); when it does
not (`if (!this.audioContext || !this.masterGain) return`), nothing happens. -/
def scheduleSound (s : AudioServiceState) (type : SoundType) (time intensity : ℚ) :
    AudioServiceState :=
  match s.masterGain with
  | none => s
  | some _ => { s with engineBookings := s.engineBookings ++ [⟨type, time, intensity⟩] }

/-- Embeds `clearScheduledSounds`: `this.scheduledSounds.clear()` — only the
bookkeeping map is emptied; no other field (in particular not the engine's
armed set) is touched, since the service holds no reference to the created
nodes. -/
def clearScheduledSounds (s : AudioServiceState) : AudioServiceState :=
  { s with scheduledSounds := [] }

/-- The 20 ms buffer added in `scheduleSounds`:
`const audioStartTime = this.audioContext.currentTime + 0.02`. -/
def LOOKAHEAD : ℚ :=
  2 / 100

/-- Embeds `scheduleSounds(sounds, startTime)` at engine clock `now`
(`this.audioContext.currentTime`): after `initAudio()` and
`clearScheduledSounds()`, each sound is booked at
`audioTime = now + 0.02 + (sound.time - startTime)` provided
`audioTime > now`, and recorded in the bookkeeping map (`Map.set`; the ids
of one call are distinct, so appending models it).  No quantity here is
divided or multiplied by the playback speed.  `scheduleSoundsStep` is the
body of the `sounds.forEach` loop. -/
def scheduleSoundsStep (now startTime : ℚ) (acc : AudioServiceState)
    (sound : ScheduledSound) : AudioServiceState :=
  let audioTime := now + LOOKAHEAD + (sound.time - startTime)
  if now < audioTime then
    let acc2 := scheduleSound acc sound.type audioTime sound.intensity
    { acc2 with scheduledSounds := acc2.scheduledSounds ++ [(sound.id, audioTime)] }
  else
    acc

/-- Folds `scheduleSoundsStep` over the sound list, after `initAudio()` and
the initial `clearScheduledSounds()`. -/
def scheduleSounds (s : AudioServiceState) (now : ℚ) (sounds : List ScheduledSound)
    (startTime : ℚ) : AudioServiceState :=
  sounds.foldl (scheduleSoundsStep now startTime) (clearScheduledSounds (initAudio s))

/-- Embeds `handleSpeedChange(newSpeed)` of the with_yoc44 Studio as far as
the audio side goes: it calls exactly `audioService.setSpeed(newSpeed)`
(the React `setSpeed` state update only feeds `speedRef`); no cancel and no
re-commit happens. -/
def handleSpeedChange (s : AudioServiceState) (newSpeed : ℚ) : AudioServiceState :=
  setSpeed s newSpeed

/-- One externally reachable mutation of the audio service (its public
surface plus the internal `initAudio` that each entry point runs). -/
inductive AudioOp where
  | doInit : AudioOp
  | doSetSpeed : ℚ → AudioOp
  | doSetVolume : ℚ → AudioOp
  | doClear : AudioOp
  | doSchedule : ℚ → List ScheduledSound → ℚ → AudioOp
  | doPlayNode : ℚ → SoundType → ℚ → AudioOp
deriving Repr

/-- Applies one operation.  `doPlayNode now type intensity` embeds
`playRhythmNode` (and the `playKick`-style wrappers): `initAudio()` then the
voice is armed immediately at `audioContext.currentTime`. -/
def applyOp (s : AudioServiceState) : AudioOp → AudioServiceState
  | .doInit => initAudio s
  | .doSetSpeed v => setSpeed s v
  | .doSetVolume v => setVolume s v
  | .doClear => clearScheduledSounds s
  | .doSchedule now sounds startTime => scheduleSounds s now sounds startTime
  | .doPlayNode now type intensity => scheduleSound (initAudio s) type now intensity

/-- Runs a sequence of operations from the freshly constructed service. -/
def runOps (ops : List AudioOp) : AudioServiceState :=
  ops.foldl applyOp initialAudioState

/-- Embeds `getPitchShift`: `Math.pow(2, (this.currentSpeed - 1) * 0.167)`. -/
noncomputable def getPitchShift (speed : ℝ) : ℝ :=
  (2 : ℝ) ^ ((speed - 1) * 0.167)

/-- KICK amplitude from `scheduleKick`: `0.3 + intensity * 0.7`. -/
def kickVolume (intensity : ℚ) : ℚ :=
  0.3 + intensity * 0.7

/-- KICK base frequency from `scheduleKick`: `150 * (1 + intensity * 0.5)`. -/
def kickBaseFreq (intensity : ℚ) : ℚ :=
  150 * (1 + intensity * 0.5)

/-- KICK oscillator frequency: `baseFreq * pitchShift`. -/
noncomputable def kickFrequency (speed : ℝ) (intensity : ℚ) : ℝ :=
  (kickBaseFreq intensity : ℝ) * getPitchShift speed

/-- BASS amplitude from `scheduleBass`: `0.24 + intensity * 0.56`. -/
def bassVolume (intensity : ℚ) : ℚ :=
  0.24 + intensity * 0.56

/-- BASS base frequency from `scheduleBass`: `100 * (1 + intensity * 0.5)`. -/
def bassBaseFreq (intensity : ℚ) : ℚ :=
  100 * (1 + intensity * 0.5)

/-- BASS oscillator frequency: `baseFreq * pitchShift`. -/
noncomputable def bassFrequency (speed : ℝ) (intensity : ℚ) : ℝ :=
  (bassBaseFreq intensity : ℝ) * getPitchShift speed

/-- SNARE noise amplitude from `scheduleSnare`: `0.12 + intensity * 0.28`. -/
def snareNoiseVolume (intensity : ℚ) : ℚ :=
  0.12 + intensity * 0.28

/-- SNARE tone amplitude from `scheduleSnare`: `0.09 + intensity * 0.21`. -/
def snareOscVolume (intensity : ℚ) : ℚ :=
  0.09 + intensity * 0.21

/-- SNARE tone base frequency from `scheduleSnare`: `180 * (1 + intensity *
0.5)`. -/
def snareBaseFreq (intensity : ℚ) : ℚ :=
  180 * (1 + intensity * 0.5)

/-- SNARE tone oscillator frequency: `baseFreq * pitchShift`. -/
noncomputable def snareFrequency (speed : ℝ) (intensity : ℚ) : ℝ :=
  (snareBaseFreq intensity : ℝ) * getPitchShift speed

/-- CRASH amplitude from `scheduleCrash`: `0.15 + intensity * 0.35`. -/
def crashVolume (intensity : ℚ) : ℚ :=
  0.15 + intensity * 0.35

/-- CRASH highpass filter cutoff from `scheduleCrash`: `2000 * (1 + intensity
* 0.75)` (no pitch shift is applied to the noise filter). -/
def crashFilterFreq (intensity : ℚ) : ℚ :=
  2000 * (1 + intensity * 0.75)

/-- The end-to-end scenario cue list of the spec (events 0.5 KICK 0.8,
0.9 BASS 0.9, 1.2 SNARE 0.9, 1.4 CRASH 1.0) as `ScheduledSound`s, as the
visualizer would pass them. -/
def scenarioSounds : List ScheduledSound :=
  [⟨1, .KICK, 0.5, 0.8⟩, ⟨2, .BASS, 0.9, 0.9⟩, ⟨3, .SNARE, 1.2, 0.9⟩,
    ⟨4, .CRASH, 1.4, 1⟩]

/-! Helper lemmas about the clock. -/

theorem runAnimate_cons (duration speed : ℚ) (s : ClockState) (t : ℚ) (ts : List ℚ) :
    runAnimate duration speed s (t :: ts) =
      runAnimate duration speed (animate duration s t speed) ts := by
  simp [runAnimate]

theorem animate_not_playing (duration : ℚ) (s : ClockState) (time speed : ℚ)
    (h : s.isPlaying = false) : animate duration s time speed = s := by
  simp [animate, h]

theorem runAnimate_not_playing (duration speed : ℚ) (s : ClockState) (ticks : List ℚ)
    (h : s.isPlaying = false) : runAnimate duration speed s ticks = s := by
  induction ticks with
  | nil => rfl
  | cons t ts ih => rw [runAnimate_cons, animate_not_playing duration s t speed h, ih]

theorem animate_below (duration : ℚ) (t0 c : ℚ) (n : Nat) (time speed : ℚ)
    (h : tickPosition time t0 speed < duration) :
    animate duration ⟨some t0, c, true, n⟩ time speed =
      ⟨some t0, tickPosition time t0 speed, true, n⟩ := by
  simp [animate, not_le.mpr h]

theorem animate_crossing (duration : ℚ) (t0 c : ℚ) (n : Nat) (time speed : ℚ)
    (h : duration ≤ tickPosition time t0 speed) :
    animate duration ⟨some t0, c, true, n⟩ time speed = ⟨none, duration, false, n + 1⟩ := by
  simp [animate, h]

theorem runAnimate_running (duration speed t0 : ℚ) :
    ∀ (ts : List ℚ) (tN c : ℚ) (n : Nat),
      (∀ t ∈ ts ++ [tN], tickPosition t t0 speed < duration) →
      runAnimate duration speed ⟨some t0, c, true, n⟩ (ts ++ [tN]) =
        ⟨some t0, tickPosition tN t0 speed, true, n⟩ := by
  intro ts
  induction ts with
  | nil =>
    intro tN c n h
    have h1 : tickPosition tN t0 speed < duration := h tN (by simp)
    simp [runAnimate_cons, runAnimate, animate_below duration t0 c n tN speed h1]
  | cons t ts ih =>
    intro tN c n h
    have h1 : tickPosition t t0 speed < duration := h t (by simp)
    rw [List.cons_append, runAnimate_cons, animate_below duration t0 c n t speed h1]
    exact ih tN _ n (fun x hx => h x (by simp at hx ⊢; tauto))

theorem runAnimate_dichotomy (duration speed t0 : ℚ) :
    ∀ (ts : List ℚ) (c : ℚ),
      (runAnimate duration speed ⟨some t0, c, true, 0⟩ ts = ⟨none, duration, false, 1⟩ ∧
          ∃ t ∈ ts, duration ≤ tickPosition t t0 speed) ∨
        ((∃ c2, runAnimate duration speed ⟨some t0, c, true, 0⟩ ts = ⟨some t0, c2, true, 0⟩) ∧
          ∀ t ∈ ts, tickPosition t t0 speed < duration) := by
  intro ts
  induction ts with
  | nil =>
    intro c
    exact Or.inr ⟨⟨c, rfl⟩, by simp⟩
  | cons t ts ih =>
    intro c
    by_cases hc : duration ≤ tickPosition t t0 speed
    · left
      rw [runAnimate_cons, animate_crossing duration t0 c 0 t speed hc,
        runAnimate_not_playing duration speed _ ts rfl]
      exact ⟨rfl, t, by simp, hc⟩
    · rw [runAnimate_cons, animate_below duration t0 c 0 t speed (not_le.mp hc)]
      rcases ih (tickPosition t t0 speed) with ⟨heq, u, hu, hcross⟩ | ⟨hrun, hall⟩
      · exact Or.inl ⟨heq, u, by simp [hu], hcross⟩
      · refine Or.inr ⟨hrun, ?_⟩
        intro x hx
        rcases List.mem_cons.mp hx with rfl | hx
        · exact not_le.mp hc
        · exact hall x hx

/-! Claim theorems about the playback clock. -/

/-- C2: for every play run (which `restartPlayback` starts at position 0),
and for every later frame callback at hardware time `tN` — however irregular
or sparse the intermediate callbacks `ts` are — the reported position equals
`fromPosition + (hardwareTimeNow - referenceTime) * speed` with
`fromPosition = 0` and `referenceTime` the run's first frame timestamp `t0`:
after wall-elapsed `tN - t0` milliseconds at constant speed, the position is
`0 + (tN - t0)/1000 * speed`, independent of callback count and spacing. -/
theorem tick_position_drift_free (duration speed t0 tN : ℚ) (ts : List ℚ)
    (h : ∀ t ∈ t0 :: (ts ++ [tN]), tickPosition t t0 speed < duration) :
    (runAnimate duration speed playFromStart (t0 :: (ts ++ [tN]))).currentTime =
      0 + (tN - t0) / 1000 * speed := by
  have h0 : tickPosition t0 t0 speed < duration := h t0 (List.mem_cons_self _ _)
  have hfirst : animate duration playFromStart t0 speed =
      ⟨some t0, tickPosition t0 t0 speed, true, 0⟩ := by
    simp [animate, playFromStart, not_le.mpr h0]
  rw [runAnimate_cons, hfirst,
    runAnimate_running duration speed t0 ts tN _ 0
      (fun t ht => h t (List.mem_cons_of_mem _ ht))]
  simp [tickPosition]

/-- Witness for C2: a run with frames at 0, 7, 1000 and 2500 ms at speed 2
and duration 6 ends at position `0 + 2500/1000 * 2 = 5`. -/
theorem tick_position_drift_free_witness :
    (runAnimate 6 2 playFromStart ((0 : ℚ) :: ([7, 1000] ++ [2500]))).currentTime =
      0 + ((2500 : ℚ) - 0) / 1000 * 2 :=
  tick_position_drift_free 6 2 0 2500 [7, 1000] (by
    intro t ht
    simp [List.mem_cons] at ht
    rcases ht with rfl | rfl | rfl | rfl <;> norm_num [tickPosition])

/-- C3 counterexample: the claim fails on the code.  With the run anchored at
hardware time 0 and speed 1, the frame at 2000 ms reports position 2.0; if
the speed is then changed to 0.5 (`handleSpeedChange` only updates
`speedRef` / `audioService.currentSpeed` and re-anchors nothing), the frame
at the same hardware instant 2000 ms reports position 1.0 — the position
immediately after the change differs from the position immediately before
it. -/
theorem speed_change_jumps_position :
    (animate 10 (animate 10 playFromStart 0 1) 2000 1).currentTime = 2 ∧
      (animate 10 (animate 10 (animate 10 playFromStart 0 1) 2000 1) 2000 (1 / 2)).currentTime
        = 1 ∧
      (animate 10 (animate 10 (animate 10 playFromStart 0 1) 2000 1) 2000 (1 / 2)).currentTime
        ≠ (animate 10 (animate 10 playFromStart 0 1) 2000 1).currentTime := by
  norm_num [animate, playFromStart, tickPosition]

/-- C3 (amended): `setSpeed` does not re-anchor the clock.  The next frame
after a speed change computes the position as
`(hardwareTimeNow - referenceTime) * newSpeed` over the entire span since
the run's start, so at the instant of the change the reported position jumps
by `elapsed * (newSpeed - oldSpeed)`; it is unchanged only when the elapsed
time is zero or the speed did not change. -/
theorem setSpeed_applies_new_speed_to_whole_elapsed (duration c : ℚ) (n : Nat)
    (t0 time newSpeed : ℚ) (h : tickPosition time t0 newSpeed < duration) :
    (animate duration ⟨some t0, c, true, n⟩ time newSpeed).currentTime =
      (time - t0) / 1000 * newSpeed := by
  rw [animate_below duration t0 c n time newSpeed h]
  rfl

/-- Witness for the amended C3: at 2000 ms elapsed a change to speed 0.5
reports `2000/1000 * 0.5 = 1`, whatever the position was before. -/
theorem setSpeed_applies_new_speed_to_whole_elapsed_witness :
    (animate 10 ⟨some 0, 2, true, 0⟩ 2000 (1 / 2)).currentTime =
      ((2000 : ℚ) - 0) / 1000 * (1 / 2) :=
  setSpeed_applies_new_speed_to_whole_elapsed 10 2 0 0 2000 (1 / 2)
    (by norm_num [tickPosition])

/-- C7 counterexample: the claim fails on the older `swingsymphony` Studio
clock.  From position 2.4 of a 2.5 s recording, a frame whose computed
position crosses the duration runs `setCurrentTime(0)`: the position is
reset to 0, not clamped to the duration 2.5. -/
theorem legacy_end_of_media_resets_to_zero :
    legacyAnimate 2.5 1 ⟨some 0, 2.4, true⟩ 10000 = ⟨none, 0, false⟩ ∧
      (legacyAnimate 2.5 1 ⟨some 0, 2.4, true⟩ 10000).currentTime ≠ 2.5 := by
  norm_num [legacyAnimate]

/-- C7 (amended): on the with_yoc44 Studio / algo-testing App clock the claim
holds: across any play run the end branch runs at most once, and as soon as
some frame's computed position reaches the duration, the final state has the
position clamped to exactly `duration`, `isPlaying = false`, and the ended
signal emitted exactly once (the branch writes `currentTime = duration`
before `isPlaying = false`).  On the older `swingsymphony` Studio clock the
claim fails: end-of-media resets the position to 0 instead
(`legacy_end_of_media_resets_to_zero`). -/
theorem end_of_media_clamps_stops_and_ends_once (duration speed t0 : ℚ) (ts : List ℚ) :
    (runAnimate duration speed playFromStart (t0 :: ts)).endedCount ≤ 1 ∧
      ((∃ t ∈ t0 :: ts, duration ≤ tickPosition t t0 speed) →
        runAnimate duration speed playFromStart (t0 :: ts) = ⟨none, duration, false, 1⟩) := by
  by_cases h0 : duration ≤ tickPosition t0 t0 speed
  · have hfirst : animate duration playFromStart t0 speed = ⟨none, duration, false, 1⟩ := by
      simp [animate, playFromStart, h0]
    rw [runAnimate_cons, hfirst, runAnimate_not_playing duration speed _ ts rfl]
    exact ⟨le_refl 1, fun _ => rfl⟩
  · have hfirst : animate duration playFromStart t0 speed =
        ⟨some t0, tickPosition t0 t0 speed, true, 0⟩ := by
      simp [animate, playFromStart, not_le.mp h0]
    rw [runAnimate_cons, hfirst]
    rcases runAnimate_dichotomy duration speed t0 ts (tickPosition t0 t0 speed) with
      ⟨heq, _⟩ | ⟨⟨c2, heq⟩, hall⟩
    · rw [heq]
      exact ⟨le_refl 1, fun _ => rfl⟩
    · rw [heq]
      refine ⟨Nat.zero_le 1, fun hcross => ?_⟩
      rcases hcross with ⟨t, ht, hle⟩
      rcases List.mem_cons.mp ht with rfl | ht
      · exact absurd hle h0
      · exact absurd hle (not_le.mpr (hall t ht))

/-! Helper lemmas about the audio service. -/

theorem scheduleSound_masterGain (s : AudioServiceState) (type : SoundType)
    (time intensity : ℚ) : (scheduleSound s type time intensity).masterGain = s.masterGain := by
  rcases hm : s.masterGain with _ | g <;> simp [scheduleSound, hm]

theorem scheduleSoundsStep_masterGain (now startTime : ℚ) (acc : AudioServiceState)
    (sound : ScheduledSound) :
    (scheduleSoundsStep now startTime acc sound).masterGain = acc.masterGain := by
  by_cases hlt : now < now + LOOKAHEAD + (sound.time - startTime)
  · simp [scheduleSoundsStep, hlt, scheduleSound_masterGain]
  · simp [scheduleSoundsStep, hlt]

theorem foldl_scheduleSoundsStep_masterGain (now startTime : ℚ) :
    ∀ (sounds : List ScheduledSound) (acc : AudioServiceState),
      (sounds.foldl (scheduleSoundsStep now startTime) acc).masterGain = acc.masterGain := by
  intro sounds
  induction sounds with
  | nil => intro acc; rfl
  | cons x xs ih =>
    intro acc
    rw [List.foldl_cons, ih, scheduleSoundsStep_masterGain]

theorem initAudio_gain_bounds (s : AudioServiceState)
    (h : ∀ g, s.masterGain = some g → 0 ≤ g ∧ g ≤ 1) :
    ∀ g, (initAudio s).masterGain = some g → 0 ≤ g ∧ g ≤ 1 := by
  rcases hm : s.masterGain with _ | g0
  · intro g hg
    simp [initAudio, hm] at hg
    constructor <;> rw [← hg] <;> norm_num
  · intro g hg
    simp [initAudio, hm] at hg
    exact hg ▸ h g0 hm

theorem applyOp_gain_bounds (s : AudioServiceState) (op : AudioOp)
    (h : ∀ g, s.masterGain = some g → 0 ≤ g ∧ g ≤ 1) :
    ∀ g, (applyOp s op).masterGain = some g → 0 ≤ g ∧ g ≤ 1 := by
  cases op with
  | doInit => exact initAudio_gain_bounds s h
  | doSetSpeed v => exact h
  | doSetVolume v =>
    rcases hm : s.masterGain with _ | g0
    · intro g hg
      simp [applyOp, setVolume, hm] at hg
    · intro g hg
      simp [applyOp, setVolume, hm] at hg
      refine ⟨?_, ?_⟩ <;> rw [← hg]
      · exact le_max_left 0 _
      · exact max_le (by norm_num) (min_le_left 1 v)
  | doClear => exact h
  | doSchedule now sounds startTime =>
    intro g hg
    rw [show applyOp s (.doSchedule now sounds startTime) =
        scheduleSounds s now sounds startTime from rfl,
      scheduleSounds, foldl_scheduleSoundsStep_masterGain] at hg
    exact initAudio_gain_bounds s h g hg
  | doPlayNode now type intensity =>
    intro g hg
    rw [show applyOp s (.doPlayNode now type intensity) =
        scheduleSound (initAudio s) type now intensity from rfl,
      scheduleSound_masterGain] at hg
    exact initAudio_gain_bounds s h g hg

theorem foldl_applyOp_gain_bounds :
    ∀ (ops : List AudioOp) (s : AudioServiceState),
      (∀ g, s.masterGain = some g → 0 ≤ g ∧ g ≤ 1) →
      ∀ g, (ops.foldl applyOp s).masterGain = some g → 0 ≤ g ∧ g ≤ 1 := by
  intro ops
  induction ops with
  | nil => intro s h; exact h
  | cons op ops ih =>
    intro s h
    exact ih (applyOp s op) (applyOp_gain_bounds s op h)

/-! Claim theorems about the audio service. -/

/-- C1 (evaluation of the code at the failing input): committing the scenario
events at engine time 0 from playback position 0 with the service set to
speed 0.5, `scheduleSounds` books every event at
`now + 0.02 + (timestamp - startTime)` — the CRASH with timestamp 1.4 at
wall 1.42 s, not at `0.02 + 1.4/0.5 = 2.82` s as the claim's formula
requires; yet the playback clock reaches song position 1.4 at speed 0.5 only
at wall-elapsed 2.8 s (2800 ms), so the booking is not speed-scaled. -/
theorem scheduleSounds_books_without_speed_division :
    (scheduleSounds (setSpeed initialAudioState (1 / 2)) 0 scenarioSounds 0).scheduledSounds =
        [(1, 13 / 25), (2, 23 / 25), (3, 61 / 50), (4, 71 / 50)] ∧
      (71 : ℚ) / 50 = LOOKAHEAD + 1.4 ∧
      (71 : ℚ) / 50 ≠ LOOKAHEAD + 1.4 / (1 / 2) ∧
      tickPosition 2800 0 (1 / 2) = 1.4 := by
  refine ⟨?_, by norm_num [LOOKAHEAD], by norm_num [LOOKAHEAD], by norm_num [tickPosition]⟩
  norm_num [scheduleSounds, scheduleSoundsStep, scheduleSound, clearScheduledSounds,
    initAudio, initialAudioState, setSpeed, scenarioSounds, LOOKAHEAD]

/-- C4 (evaluation of the code at the failing input): after committing the
scenario at engine time 0 and then pausing at engine time 0.1 (which runs
`clearScheduledSounds`), the bookkeeping map is empty, but every one-shot
armed on the engine — including the CRASH at wall 1.42 s, not yet fired
since 0.1 < 1.42 — is still armed: the service kept no reference to the
created nodes and never stops them, so the booking still sounds. -/
theorem clear_leaves_engine_bookings_armed :
    (clearScheduledSounds (scheduleSounds initialAudioState 0 scenarioSounds 0)).scheduledSounds
        = [] ∧
      (clearScheduledSounds (scheduleSounds initialAudioState 0 scenarioSounds 0)).engineBookings
        = [⟨.KICK, 13 / 25, 0.8⟩, ⟨.BASS, 23 / 25, 0.9⟩, ⟨.SNARE, 61 / 50, 0.9⟩,
            ⟨.CRASH, 71 / 50, 1⟩] ∧
      (1 : ℚ) / 10 < 71 / 50 := by
  refine ⟨rfl, ?_, by norm_num⟩
  norm_num [scheduleSounds, scheduleSoundsStep, scheduleSound, clearScheduledSounds,
    initAudio, initialAudioState, scenarioSounds, LOOKAHEAD]

/-- C5 counterexample: the claim fails on the code at a concrete input.
Commit the scenario at engine time 0 with speed 1, then change the speed to
0.5 (`handleSpeedChange` calls exactly `audioService.setSpeed`): the armed
engine bookings and the bookkeeping map afterwards both still equal those
computed under the old speed — among them the CRASH booked at wall 1.42 s —
so bookings computed under the old speed remain armed and no new commit
happened. -/
theorem speed_change_cancels_and_recommits_nothing :
    (handleSpeedChange (scheduleSounds initialAudioState 0 scenarioSounds 0) (1 / 2)).engineBookings
        = (scheduleSounds initialAudioState 0 scenarioSounds 0).engineBookings ∧
      (handleSpeedChange (scheduleSounds initialAudioState 0 scenarioSounds 0)
            (1 / 2)).scheduledSounds
        = (scheduleSounds initialAudioState 0 scenarioSounds 0).scheduledSounds ∧
      (4, (71 : ℚ) / 50) ∈
        (handleSpeedChange (scheduleSounds initialAudioState 0 scenarioSounds 0)
            (1 / 2)).scheduledSounds := by
  refine ⟨rfl, rfl, ?_⟩
  norm_num [scheduleSounds, scheduleSoundsStep, scheduleSound, clearScheduledSounds,
    initAudio, initialAudioState, handleSpeedChange, setSpeed, scenarioSounds, LOOKAHEAD]

/-- C5 (amended): a speed change while playing only stores the new speed on
the audio service, to pitch-shift voices scheduled afterwards.  It cancels
nothing and re-commits nothing: the bookkeeping map, the armed engine
bookings and the master gain are untouched, so every booking computed under
the old speed stays armed at its stale wall-clock time. -/
theorem speed_change_only_updates_current_speed (s : AudioServiceState) (newSpeed : ℚ) :
    (handleSpeedChange s newSpeed).currentSpeed = newSpeed ∧
      (handleSpeedChange s newSpeed).engineBookings = s.engineBookings ∧
      (handleSpeedChange s newSpeed).scheduledSounds = s.scheduledSounds ∧
      (handleSpeedChange s newSpeed).masterGain = s.masterGain := by
  exact ⟨rfl, rfl, rfl, rfl⟩

/-- C6: for every intensity `I` in `[0,1]` and speed `s`, the KICK voice has
amplitude `0.30 + 0.70*I` and frequency `150*(1 + 0.5*I)*pitchShift` with
`pitchShift = 2^((s-1)*0.167)`; in particular amplitude 1.0 and base
frequency 225 Hz at `I = 1.0`, amplitude 0.3 and base frequency 150 Hz at
`I = 0.0`; and the analogous rows hold for BASS, SNARE and CRASH (the CRASH
filter cutoff is not pitch-shifted). -/
theorem voice_parameter_contract (intensity : ℚ) (speed : ℝ)
    (h0 : 0 ≤ intensity) (h1 : intensity ≤ 1) :
    kickVolume intensity = 0.30 + 0.70 * intensity ∧
      kickFrequency speed intensity = 150 * (1 + 0.5 * (intensity : ℝ)) * getPitchShift speed ∧
      getPitchShift speed = (2 : ℝ) ^ ((speed - 1) * 0.167) ∧
      kickVolume 1 = 1 ∧
      kickBaseFreq 1 = 225 ∧
      kickVolume 0 = 0.3 ∧
      kickBaseFreq 0 = 150 ∧
      bassVolume intensity = 0.24 + 0.56 * intensity ∧
      bassFrequency speed intensity = 100 * (1 + 0.5 * (intensity : ℝ)) * getPitchShift speed ∧
      snareNoiseVolume intensity = 0.12 + 0.28 * intensity ∧
      snareOscVolume intensity = 0.09 + 0.21 * intensity ∧
      snareFrequency speed intensity = 180 * (1 + 0.5 * (intensity : ℝ)) * getPitchShift speed ∧
      crashVolume intensity = 0.15 + 0.35 * intensity ∧
      crashFilterFreq intensity = 2000 * (1 + 0.75 * intensity) := by
  refine ⟨by rw [kickVolume]; ring, ?_, rfl, by norm_num [kickVolume],
    by norm_num [kickBaseFreq], by norm_num [kickVolume], by norm_num [kickBaseFreq],
    by rw [bassVolume]; ring, ?_, by rw [snareNoiseVolume]; ring,
    by rw [snareOscVolume]; ring, ?_, by rw [crashVolume]; ring,
    by rw [crashFilterFreq]; ring⟩
  · rw [kickFrequency, kickBaseFreq]
    push_cast
    ring
  · rw [bassFrequency, bassBaseFreq]
    push_cast
    ring
  · rw [snareFrequency, snareBaseFreq]
    push_cast
    ring

/-- Witness for C6 at intensity 1 and speed 1. -/
theorem voice_parameter_contract_witness :
    kickVolume 1 = 0.30 + 0.70 * 1 :=
  (voice_parameter_contract 1 1 (by norm_num) (by norm_num)).1

/-- C9: the visualizer books `node.intensity || 0.7`; both an absent
intensity and the value 0 are booked as the default 0.7, so a zero-intensity
KICK is rendered with amplitude `0.3 + 0.7*0.7 = 0.79`, not with the
minimum-amplitude 0.3 row of the parameter table. -/
theorem zero_intensity_books_mid_default :
    effectiveIntensity none = 0.7 ∧
      effectiveIntensity (some 0) = 0.7 ∧
      (visualizerScheduledSounds [⟨7, .KICK, 0.5, some 0⟩]).map ScheduledSound.intensity
        = [0.7] ∧
      kickVolume (effectiveIntensity (some 0)) = 0.79 ∧
      kickVolume (effectiveIntensity (some 0)) ≠ kickVolume 0 := by
  norm_num [effectiveIntensity, visualizerScheduledSounds, kickVolume]

/-- C10: the master output gain always lies in `[0,1]`: `initAudio` creates
it at 0.3, every reachable state of the service keeps it in `[0,1]`, and
`setVolume(v)` clamps any request to `min 1 (max 0 v)` (the code's
`Math.max(0, Math.min(1, v))`, the same function). -/
theorem master_gain_stays_in_unit_interval :
    (∀ (ops : List AudioOp) (g : ℚ), (runOps ops).masterGain = some g → 0 ≤ g ∧ g ≤ 1) ∧
      (initAudio initialAudioState).masterGain = some 0.3 ∧
      (∀ (s : AudioServiceState) (g v : ℚ), s.masterGain = some g →
        (setVolume s v).masterGain = some (min 1 (max 0 v))) := by
  refine ⟨?_, by norm_num [initAudio, initialAudioState], ?_⟩
  · intro ops g
    exact foldl_applyOp_gain_bounds ops initialAudioState
      (by intro g hg; simp [initialAudioState] at hg) g
  · intro s g v hm
    have hdistrib : max 0 (min 1 v) = min 1 (max 0 v) := by
      rw [min_max_distrib_left, min_eq_right (by norm_num : (0 : ℚ) ≤ 1)]
    simp [setVolume, hm, hdistrib]

/-! Claim theorems about loading a recording. -/

/-- A fetched model whose cue list is unsorted and holds out-of-range
timestamps (one negative, one past the 2.5 s duration). -/
def malformedModelData : SwingData :=
  ⟨2.5, [⟨1, .KICK, 3, some 1⟩, ⟨2, .CRASH, -1, some 1⟩]⟩

/-- C8 counterexample: the claim fails on the code at a concrete input.
Loading `malformedModelData` keeps its cue list exactly as fetched: the held
list still contains an event with a negative timestamp and one past the
duration, and it is not sorted by timestamp — nothing is dropped or
reordered. -/
theorem load_keeps_malformed_events :
    (loadModelData malformedModelData).rhythmTrack = malformedModelData.rhythmTrack ∧
      (∃ e ∈ (loadModelData malformedModelData).rhythmTrack, e.timestamp < 0) ∧
      (∃ e ∈ (loadModelData malformedModelData).rhythmTrack,
        malformedModelData.duration < e.timestamp) ∧
      ¬ List.Sorted (fun a b : RhythmNode => a.timestamp ≤ b.timestamp)
          (loadModelData malformedModelData).rhythmTrack := by
  refine ⟨rfl, ⟨⟨2, .CRASH, -1, some 1⟩, by norm_num [loadModelData, malformedModelData]⟩,
    ⟨⟨1, .KICK, 3, some 1⟩, by norm_num [loadModelData, malformedModelData]⟩, ?_⟩
  intro hsorted
  have := List.rel_of_sorted_cons hsorted ⟨2, .CRASH, -1, some 1⟩ (by norm_num [loadModelData, malformedModelData])
  norm_num at this

/-- C8 (amended): loading a recording replaces the held cue list wholesale
with the fetched list, unchanged: no sorting and no timestamp validation
happen anywhere on the load path, and the scheduling path books the held
nodes verbatim (same timestamps, in the same order). -/
theorem load_replaces_list_unchanged (d : SwingData) :
    (loadModelData d).rhythmTrack = d.rhythmTrack ∧
      (visualizerScheduledSounds d.rhythmTrack).map ScheduledSound.time
        = d.rhythmTrack.map RhythmNode.timestamp := by
  refine ⟨rfl, ?_⟩
  simp [visualizerScheduledSounds, List.map_map, Function.comp]

end SwingSymphony
